import Mathlib

/-!
# Verification of the V1 voice-session engine

Shallow embedding of the real-time voice session logic of the
`V1-AI-personal-assistant` repository (`src/components/VoiceInteraction.tsx`
and its near-identical variants).  Times and audio samples are modelled as
rationals; JS 16-bit integer conversion is modelled with explicit
truncation and wrap-around mod 2^16.

The file is organised component by component, following the code:
* PCM codec (`onaudioprocess` encode at lines 434-438, `decodeAudioData`
  at lines 298-315 of the second variant);
* base64 transport codec (`decode`/`atob`, lines 288-296) and the
  malformed-chunk path of the first variant (`decodeAudioData`,
  lines 34-51, `onmessage` lines 90-110);
* playback scheduler (`onmessage` audio block, lines 449-461, and the
  `interrupted` block, lines 506-510);
* transcript aggregator (`turnComplete` block, lines 470-482);
* tool-call dispatcher (lines 485-504);
* session controller (`startSession` lines 391-417/534, `stopSession`
  lines 367-389);
* capture pipeline wiring (`onopen`, lines 421-446).
-/

/-! ## PCM codec

`VoiceInteraction.tsx`, second variant.  The capture path does
`int16[i] = inputData[i] * 32768` (JS `Int16Array` assignment: truncate
toward zero, then wrap mod 2^16 into `[-32768, 32768)`), and the bytes are
the little-endian layout of the `Int16Array` buffer.  The playback path
(`decodeAudioData`) reads little-endian 16-bit integers and divides by
`32768.0`. -/

/-- Truncation toward zero of a rational, as JS `ToIntegerOrInfinity`. -/
def truncQ (q : ℚ) : ℤ := if 0 ≤ q then ⌊q⌋ else ⌈q⌉

/-- JS `ToInt16`: wrap an integer mod 2^16 into `[-32768, 32768)`. -/
def toInt16 (n : ℤ) : ℤ := (n + 32768) % 65536 - 32768

/-- One captured sample to its 16-bit signed value
(`int16[i] = inputData[i] * 32768` at line 435). -/
def sampleToInt16 (x : ℚ) : ℤ := toInt16 (truncQ (x * 32768))

/-- Little-endian byte layout of one 16-bit value
(`new Uint8Array(int16.buffer)` at line 438). -/
def int16ToBytes (n : ℤ) : List ℕ :=
  [(n % 65536).toNat % 256, (n % 65536).toNat / 256]

/-- `floatFrameToPcm16` (spec §4.1): the capture-side encoding performed in
`onaudioprocess` (lines 434-438): scale by 32768, truncate to int16,
serialize little-endian. -/
def floatFrameToPcm16 (samples : List ℚ) : List ℕ :=
  (samples.map sampleToInt16).flatMap int16ToBytes

/-- Read one little-endian 16-bit signed value from two bytes, as the
`Int16Array` view used by `decodeAudioData` does. -/
def int16OfBytes (lo hi : ℕ) : ℤ :=
  if lo + 256 * hi < 32768 then ((lo + 256 * hi : ℕ) : ℤ)
  else ((lo + 256 * hi : ℕ) : ℤ) - 65536

/-- The `Int16Array` view of a byte buffer (little-endian pairs); a
trailing odd byte is not part of any element. -/
def bytesToInt16 : List ℕ → List ℤ
  | lo :: hi :: rest => int16OfBytes lo hi :: bytesToInt16 rest
  | _ => []

/-- `pcm16ToFloatFrame` (spec §4.1): the playback-side decoding of
`decodeAudioData` (lines 298-315) for mono:
`channelData[i] = dataInt16[i] / 32768.0`. -/
def pcm16ToFloatFrame (bytes : List ℕ) : List ℚ :=
  (bytesToInt16 bytes).map (fun (n : ℤ) => (n : ℚ) / 32768)

/-! ### Codec lemmas -/

theorem toInt16_range (n : ℤ) : -32768 ≤ toInt16 n ∧ toInt16 n < 32768 := by
  unfold toInt16
  have h1 : 0 ≤ (n + 32768) % 65536 :=
    Int.emod_nonneg _ (by norm_num)
  have h2 : (n + 32768) % 65536 < 65536 :=
    Int.emod_lt_of_pos _ (by norm_num)
  omega

theorem toInt16_eq_self {n : ℤ} (h1 : -32768 ≤ n) (h2 : n < 32768) :
    toInt16 n = n := by
  unfold toInt16
  rw [Int.emod_eq_of_lt (by omega) (by omega)]
  omega

theorem abs_truncQ_sub_le (q : ℚ) : |(truncQ q : ℚ) - q| ≤ 1 := by
  unfold truncQ
  split
  · rw [abs_sub_comm, abs_of_nonneg (sub_nonneg.mpr (Int.floor_le q))]
    have := Int.lt_floor_add_one q
    linarith
  · rw [abs_of_nonneg (sub_nonneg.mpr (Int.le_ceil q))]
    have := Int.ceil_lt_add_one q
    linarith

theorem truncQ_range {x : ℚ} (h1 : -1 ≤ x) (h2 : x < 1) :
    -32768 ≤ truncQ (x * 32768) ∧ truncQ (x * 32768) < 32768 := by
  have hlo : (-32768 : ℚ) ≤ x * 32768 := by nlinarith
  have hhi : x * 32768 < 32768 := by nlinarith
  unfold truncQ
  split
  · constructor
    · have : (0 : ℤ) ≤ ⌊x * 32768⌋ := Int.floor_nonneg.mpr (by assumption)
      omega
    · exact Int.floor_lt.mpr (by exact_mod_cast hhi)
  · constructor
    · have : ((-32768 : ℤ) : ℚ) ≤ x * 32768 := by exact_mod_cast hlo
      exact_mod_cast le_trans this (Int.le_ceil _)
    · have : ⌈x * 32768⌉ ≤ 0 := Int.ceil_le.mpr (by push_cast; linarith)
      omega

theorem bytesToInt16_int16ToBytes {n : ℤ} (h1 : -32768 ≤ n) (h2 : n < 32768)
    (rest : List ℕ) :
    bytesToInt16 (int16ToBytes n ++ rest) = n :: bytesToInt16 rest := by
  have hnn : 0 ≤ n % 65536 := Int.emod_nonneg _ (by norm_num)
  have hcast : ((n % 65536).toNat : ℤ) = n % 65536 := Int.toNat_of_nonneg hnn
  simp only [int16ToBytes, List.cons_append, List.nil_append, bytesToInt16,
    List.cons.injEq]
  refine ⟨?_, rfl⟩
  unfold int16OfBytes
  split <;> omega

theorem bytesToInt16_flatMap (l : List ℤ)
    (h : ∀ n ∈ l, -32768 ≤ n ∧ n < 32768) :
    bytesToInt16 (l.flatMap int16ToBytes) = l := by
  induction l with
  | nil => rfl
  | cons a t ih =>
    rw [List.flatMap_cons]
    have ha := h a (List.mem_cons_self a t)
    rw [bytesToInt16_int16ToBytes ha.1 ha.2]
    rw [ih (fun n hn => h n (List.mem_cons_of_mem a hn))]

theorem pcm16_floatFrame_eq (frame : List ℚ) :
    pcm16ToFloatFrame (floatFrameToPcm16 frame)
      = frame.map (fun x => (sampleToInt16 x : ℚ) / 32768) := by
  have h := bytesToInt16_flatMap (frame.map sampleToInt16) (fun n hn => by
    obtain ⟨x, _, rfl⟩ := List.mem_map.mp hn
    exact toInt16_range _)
  unfold pcm16ToFloatFrame floatFrameToPcm16
  rw [h, List.map_map]
  rfl

theorem sample_roundtrip_bound {x : ℚ} (h1 : -1 ≤ x) (h2 : x < 1) :
    |(sampleToInt16 x : ℚ) / 32768 - x| ≤ 1 / 32768 := by
  obtain ⟨hl, hr⟩ := truncQ_range h1 h2
  unfold sampleToInt16
  rw [toInt16_eq_self hl hr]
  have habs := abs_truncQ_sub_le (x * 32768)
  have heq : (truncQ (x * 32768) : ℚ) / 32768 - x
      = ((truncQ (x * 32768) : ℚ) - x * 32768) / 32768 := by ring
  rw [heq, abs_div, abs_of_pos (by norm_num : (0 : ℚ) < 32768)]
  gcongr

/-! ### C5 -/

/-- C5 (counterexample): the round-trip law fails at the in-range sample
`1`.  `int16[i] = 1 * 32768` wraps to `-32768` (JS `ToInt16`), so decoding
returns `-1`, which differs from `1` by `2`, far more than `1/32768`. -/
theorem pcm_roundtrip_claim_counterexample :
    pcm16ToFloatFrame (floatFrameToPcm16 [(1 : ℚ)]) = [-1] ∧
    ¬ |(-1 : ℚ) - 1| ≤ 1 / 32768 := by
  have hs : sampleToInt16 1 = -32768 := by
    have ht : truncQ ((1 : ℚ) * 32768) = 32768 := by
      unfold truncQ
      rw [show ((1 : ℚ) * 32768) = ((32768 : ℤ) : ℚ) by norm_num,
        if_pos (by norm_num), Int.floor_intCast]
    unfold sampleToInt16
    rw [ht]
    unfold toInt16
    decide
  constructor
  · rw [pcm16_floatFrame_eq]
    simp only [List.map_cons, List.map_nil, hs]
    norm_num
  · norm_num

/-- C5 (amended): for float frames with every sample in `[-1, 1)` (the
right-open interval excludes the wrapping sample `1`), encoding with
`floatFrameToPcm16` and decoding with `pcm16ToFloatFrame` returns a frame
of the same length whose every sample differs from the corresponding
input sample by at most `1/32768`. -/
theorem pcm_roundtrip_amended (frame : List ℚ)
    (hb : ∀ x ∈ frame, -1 ≤ x ∧ x < 1) :
    (pcm16ToFloatFrame (floatFrameToPcm16 frame)).length = frame.length ∧
    ∀ (i : ℕ) (x y : ℚ), frame.get? i = some x →
      (pcm16ToFloatFrame (floatFrameToPcm16 frame)).get? i = some y →
      |y - x| ≤ 1 / 32768 := by
  rw [pcm16_floatFrame_eq]
  refine ⟨by simp, ?_⟩
  intro i x y hx hy
  rw [List.get?_map, hx, Option.map_some'] at hy
  obtain rfl : (sampleToInt16 x : ℚ) / 32768 = y := by
    exact Option.some.inj hy
  have hmem := List.get?_mem hx
  exact sample_roundtrip_bound (hb x hmem).1 (hb x hmem).2

/-- Witness for C5 (amended) at the concrete frame `[0]`. -/
theorem pcm_roundtrip_amended_witness :
    (∀ x ∈ [(0 : ℚ)], -1 ≤ x ∧ x < 1) ∧
    (pcm16ToFloatFrame (floatFrameToPcm16 [(0 : ℚ)])).get? 0 = some 0 ∧
    |(0 : ℚ) - 0| ≤ 1 / 32768 := by
  have hb : ∀ x ∈ [(0 : ℚ)], -1 ≤ x ∧ x < 1 := by
    intro x hx
    simp only [List.mem_singleton] at hx
    subst hx
    norm_num
  have hs : sampleToInt16 0 = 0 := by
    unfold sampleToInt16 truncQ
    rw [show ((0 : ℚ) * 32768) = ((0 : ℤ) : ℚ) by norm_num,
      if_pos (by norm_num), Int.floor_intCast]
    unfold toInt16
    decide
  have hget : (pcm16ToFloatFrame (floatFrameToPcm16 [(0 : ℚ)])).get? 0
      = some 0 := by
    rw [pcm16_floatFrame_eq]
    simp only [List.map_cons, List.map_nil, hs, List.get?]
    norm_num
  exact ⟨hb, hget, (pcm_roundtrip_amended [(0 : ℚ)] hb).2 0 0 0 rfl hget⟩

/-! ## Playback scheduler

Second variant, `onmessage` audio block (lines 449-461):
`nextStartTimeRef.current = Math.max(nextStartTimeRef.current, ctx.currentTime)`;
`source.start(nextStartTimeRef.current)`;
`nextStartTimeRef.current += buffer.duration`; the source is added to
`sourcesRef`.  The `interrupted` block (lines 506-510) stops every source,
clears the set and sets `nextStartTimeRef.current = 0`. -/

/-- Playback-scheduler state: the `nextStartTimeRef` cursor and the
`sourcesRef` set of active playback handles (handles as numeric ids). -/
structure PlaySt where
  nextStart : ℚ
  sources : List ℕ
deriving DecidableEq

/-- One inbound audio chunk scheduled (lines 452-460): clamp the cursor to
the device's current time `ct`, start the buffer at the clamped cursor,
advance the cursor by the buffer duration `d`, register the handle.
Returns the new state and the playback start time passed to
`source.start`. -/
def scheduleChunk (ct : ℚ) (s : PlaySt) (d : ℚ) (handle : ℕ) : PlaySt × ℚ :=
  let ns := max s.nextStart ct
  ({ nextStart := ns + d, sources := s.sources ++ [handle] }, ns)

/-- Schedule a sequence of chunks, each given as a pair
`(deviceCurrentTime at arrival, buffer duration)`.  Returns the final
state and the list of start times, in order. -/
def scheduleSeq : PlaySt → List (ℚ × ℚ) → PlaySt × List ℚ
  | s, [] => (s, [])
  | s, (ct, d) :: rest =>
    let r1 := scheduleChunk ct s d 0
    let r2 := scheduleSeq r1.1 rest
    (r2.1, r1.2 :: r2.2)

/-- "The device clock does not overtake the cursor": from cursor value `c`,
each chunk in the list arrives with device time at most the cursor value
current when it is scheduled. -/
def noOvertake : ℚ → List (ℚ × ℚ) → Prop
  | _, [] => True
  | c, (ct, d) :: rest => ct ≤ c ∧ noOvertake (c + d) rest

/-- The `interrupted` handler (lines 506-510): force-stop every handle in
`sourcesRef` (the returned list records the handles on which `s.stop()` is
called), clear the set, and set `nextStartTimeRef.current = 0`.  Returns
the new state and the stopped handles. -/
def interruptedHandler (s : PlaySt) : PlaySt × List ℕ :=
  ({ nextStart := 0, sources := [] }, s.sources)

/-! ### Scheduler lemmas -/

theorem scheduleSeq_length (s : PlaySt) (l : List (ℚ × ℚ)) :
    (scheduleSeq s l).2.length = l.length := by
  induction l generalizing s with
  | nil => rfl
  | cons p rest ih =>
    obtain ⟨ct, d⟩ := p
    simp only [scheduleSeq, List.length_cons, ih]

theorem scheduleSeq_noOvertake (l : List (ℚ × ℚ)) :
    ∀ (s : PlaySt), noOvertake s.nextStart l →
    ∀ i : ℕ, i < l.length →
      (scheduleSeq s l).2.get? i
        = some (s.nextStart + ((l.map Prod.snd).take i).sum) := by
  induction l with
  | nil =>
    intro s _ i hi
    exact absurd hi (by simp)
  | cons p rest ih =>
    obtain ⟨ct, d⟩ := p
    intro s hno i hi
    obtain ⟨hct, hrest⟩ := hno
    have hclamp : max s.nextStart ct = s.nextStart := max_eq_left hct
    match i with
    | 0 =>
      simp only [scheduleSeq, scheduleChunk, hclamp, List.get?, List.take,
        List.sum_nil, add_zero]
    | Nat.succ j =>
      have hj : j < rest.length := by
        simpa using Nat.lt_of_succ_lt_succ hi
      have hs1 : (scheduleChunk ct s d 0).1.nextStart = s.nextStart + d := by
        simp [scheduleChunk, hclamp]
      have := ih (scheduleChunk ct s d 0).1 (by rw [hs1]; exact hrest) j hj
      simp only [scheduleSeq, List.get?]
      rw [this, hs1]
      simp only [List.map_cons, List.take_succ_cons, List.sum_cons]
      ring_nf

/-! ### C4 -/

/-- C4: each chunk is scheduled to begin at
`max(nextStart, deviceCurrentTime)` and the cursor then advances by exactly
that chunk's duration; and whenever the device clock does not overtake the
cursor after the first chunk, the N start times are contiguous:
`start_i = start_1 + sum of d_j for j < i`. -/
theorem scheduling_contiguous (s : PlaySt) (ct1 d1 : ℚ)
    (rest : List (ℚ × ℚ))
    (hno : noOvertake (max s.nextStart ct1 + d1) rest) :
    (∀ (ct d : ℚ) (handle : ℕ),
      (scheduleChunk ct s d handle).2 = max s.nextStart ct ∧
      (scheduleChunk ct s d handle).1.nextStart
        = (scheduleChunk ct s d handle).2 + d) ∧
    (scheduleSeq s ((ct1, d1) :: rest)).2.length = rest.length + 1 ∧
    ∀ i : ℕ, i < rest.length + 1 →
      (scheduleSeq s ((ct1, d1) :: rest)).2.get? i
        = some (max s.nextStart ct1 + ((d1 :: rest.map Prod.snd).take i).sum) := by
  refine ⟨fun ct d handle => ⟨rfl, rfl⟩, by simp [scheduleSeq_length], ?_⟩
  intro i hi
  match i with
  | 0 =>
    simp [scheduleSeq, scheduleChunk]
  | Nat.succ j =>
    have hj : j < rest.length := Nat.lt_of_succ_lt_succ hi
    have hs1 : (scheduleChunk ct1 s d1 0).1.nextStart
        = max s.nextStart ct1 + d1 := rfl
    have hrec := scheduleSeq_noOvertake rest (scheduleChunk ct1 s d1 0).1
      (by rw [hs1]; exact hno) j hj
    simp only [scheduleSeq, List.get?]
    rw [hrec, hs1]
    simp only [List.take_succ_cons, List.sum_cons]
    ring_nf

/-- Witness for C4 at the concrete run: cursor 0, chunks
`(deviceTime, duration) = (2,1), (1,2), (3,1)`; the third start time is
`start_1 + d_1 + d_2 = 2 + 3 = 5`. -/
theorem scheduling_contiguous_witness :
    noOvertake (max (0 : ℚ) 2 + 1) [((1 : ℚ), (2 : ℚ)), (3, 1)] ∧
    (scheduleSeq ⟨0, []⟩ [((2 : ℚ), (1 : ℚ)), (1, 2), (3, 1)]).2.get? 2
      = some (max (0 : ℚ) 2 + (([1, 2, 1] : List ℚ).take 2).sum) := by
  have hm : max (0 : ℚ) 2 = 2 := max_eq_right (by norm_num)
  have hno : noOvertake (max (0 : ℚ) 2 + 1) [((1 : ℚ), (2 : ℚ)), (3, 1)] := by
    simp only [noOvertake, hm]
    norm_num
  exact ⟨hno,
    (scheduling_contiguous ⟨0, []⟩ 2 1 [(1, 2), (3, 1)] hno).2.2 2 (by norm_num)⟩

/-! ### C1 -/

/-- C1 (counterexample): with the device's current time at 5, a cursor at 7
and one active handle, the `interrupted` handler leaves the cursor at `0`
(line 509: `nextStartTimeRef.current = 0`), not at the device's current
time 5, and hence behind it — refuting "resets `nextStart` to the output
device's current time" and "never left behind the device's current time". -/
theorem interrupted_claim_counterexample :
    (interruptedHandler ⟨7, [1]⟩).1.nextStart = 0 ∧
    (interruptedHandler ⟨7, [1]⟩).1.nextStart ≠ 5 ∧
    (interruptedHandler ⟨7, [1]⟩).1.nextStart < 5 := by
  refine ⟨rfl, ?_, ?_⟩ <;> norm_num [interruptedHandler]

/-- C1 (amended): handling `interrupted` force-stops every handle in the
active set (the stopped list is exactly the previous active set), leaves
the active playback handle count at 0, and resets the cursor to `0` — not
to the device's current time; the cursor is only re-clamped to the device
clock by the `max` at the next scheduled chunk. -/
theorem interrupted_flushes_playback (s : PlaySt) (h : s.sources ≠ []) :
    (interruptedHandler s).2 = s.sources ∧
    (interruptedHandler s).1.sources = [] ∧
    (interruptedHandler s).1.sources.length = 0 ∧
    (interruptedHandler s).1.nextStart = 0 :=
  ⟨rfl, rfl, rfl, rfl⟩

/-- Witness for C1 (amended) at a concrete state with one active handle. -/
theorem interrupted_flushes_playback_witness :
    ((⟨7, [1]⟩ : PlaySt).sources ≠ []) ∧
    (interruptedHandler ⟨7, [1]⟩).2 = [1] ∧
    (interruptedHandler ⟨7, [1]⟩).1.nextStart = 0 :=
  ⟨by decide, (interrupted_flushes_playback ⟨7, [1]⟩ (by decide)).1,
    (interrupted_flushes_playback ⟨7, [1]⟩ (by decide)).2.2.2⟩

/-! ## Transcript aggregator

Second variant, `onmessage` (lines 463-482): partial transcripts are
appended to `currentOutputTranscription` / `currentInputTranscription`
(mutually exclusive per message, `else if`); on
`message.serverContent?.turnComplete` both accumulators are trimmed, and
if either is non-empty the user record (when non-empty) then the assistant
record (when non-empty) are appended to the log, which is capped with
`.slice(-10)`; both accumulators are cleared regardless. -/

/-- Model of JS `String.prototype.trim()`: strip leading and trailing
whitespace (space, tab, LF, CR, FF, VT). -/
def isJsWhitespace (c : Char) : Bool :=
  c = ' ' ∨ c = '\t' ∨ c = '\n' ∨ c = '\r' ∨ c = '\x0b' ∨ c = '\x0c'

/-- Model of JS `String.prototype.trim()`. -/
def jsTrim (s : String) : String :=
  ⟨((s.data.dropWhile isJsWhitespace).reverse.dropWhile isJsWhitespace).reverse⟩

/-- Model of JS `Array.prototype.slice(-n)`: the last `n` elements. -/
def sliceLast (n : ℕ) (l : List α) : List α := l.drop (l.length - n)

/-- Speaker tag of a finalized turn record (`type: 'user' | 'v1'`). -/
inductive Speaker where
  | user
  | v1
deriving DecidableEq

/-- A finalized turn record `{ type, text }`. -/
structure TurnRecord where
  type : Speaker
  text : String
deriving DecidableEq

/-- Transcript-aggregator state: the two accumulator refs and the
`transcription` log. -/
structure TransSt where
  currentInputTranscription : String
  currentOutputTranscription : String
  transcription : List TurnRecord
deriving DecidableEq

/-- The records a `turn_complete` appends before the `slice(-10)` cap:
`...(uText ? [{type:'user',...}] : []), ...(aText ? [{type:'v1',...}] : [])`
(lines 474-478). -/
def turnRecords (uText aText : String) : List TurnRecord :=
  (if uText ≠ "" then [⟨Speaker.user, uText⟩] else [])
    ++ (if aText ≠ "" then [⟨Speaker.v1, aText⟩] else [])

/-- The `turnComplete` block (lines 470-482): trim both accumulators; if
either is non-empty, append the user record then the assistant record and
cap the log at the last 10 entries; clear both accumulators. -/
def handleTurnComplete (s : TransSt) : TransSt :=
  let uText := jsTrim s.currentInputTranscription
  let aText := jsTrim s.currentOutputTranscription
  let log := if uText ≠ "" ∨ aText ≠ "" then
      sliceLast 10 (s.transcription ++ turnRecords uText aText)
    else s.transcription
  { currentInputTranscription := ""
    currentOutputTranscription := ""
    transcription := log }

/-! ### C6 -/

/-- C6: on `turn_complete`, after trimming both accumulators: if both are
empty no new record is emitted; if only the user accumulator is non-empty
exactly the one user-tagged record is appended (before the cap); if both
are non-empty the user record precedes the assistant record; and in every
case both accumulators are cleared. -/
theorem turn_complete_emission (s : TransSt) :
    ((jsTrim s.currentInputTranscription = ""
        ∧ jsTrim s.currentOutputTranscription = "") →
      (handleTurnComplete s).transcription = s.transcription) ∧
    ((jsTrim s.currentInputTranscription ≠ ""
        ∧ jsTrim s.currentOutputTranscription = "") →
      (handleTurnComplete s).transcription
        = sliceLast 10 (s.transcription
            ++ [⟨Speaker.user, jsTrim s.currentInputTranscription⟩])) ∧
    ((jsTrim s.currentInputTranscription ≠ ""
        ∧ jsTrim s.currentOutputTranscription ≠ "") →
      (handleTurnComplete s).transcription
        = sliceLast 10 (s.transcription
            ++ [⟨Speaker.user, jsTrim s.currentInputTranscription⟩,
                ⟨Speaker.v1, jsTrim s.currentOutputTranscription⟩])) ∧
    (handleTurnComplete s).currentInputTranscription = "" ∧
    (handleTurnComplete s).currentOutputTranscription = "" := by
  refine ⟨?_, ?_, ?_, rfl, rfl⟩
  · rintro ⟨hu, ha⟩
    simp [handleTurnComplete, hu, ha]
  · rintro ⟨hu, ha⟩
    simp [handleTurnComplete, turnRecords, hu, ha]
  · rintro ⟨hu, ha⟩
    simp [handleTurnComplete, turnRecords, hu, ha]

/-- Witness for C6 at a concrete state: user accumulator `" hi "`,
assistant accumulator empty — exactly one user record is appended and both
accumulators end cleared. -/
theorem turn_complete_emission_witness :
    (jsTrim " hi " ≠ "" ∧ jsTrim "" = "") ∧
    (handleTurnComplete ⟨" hi ", "", []⟩).transcription
      = sliceLast 10 ([] ++ [⟨Speaker.user, jsTrim " hi "⟩]) ∧
    (handleTurnComplete ⟨" hi ", "", []⟩).currentInputTranscription = "" :=
  ⟨⟨by decide, by decide⟩,
    (turn_complete_emission ⟨" hi ", "", []⟩).2.1 ⟨by decide, by decide⟩,
    (turn_complete_emission ⟨" hi ", "", []⟩).2.2.2.1⟩

/-! ## Tool-call dispatcher

Second variant, `onmessage` function-calling block (lines 485-504):
for each `fc` of `message.toolCall.functionCalls`, `response` starts as
`"Success"`; a `try` block runs the `if/else if` chain over the known tool
names, the `catch` turns a thrown error into
`"Handled Exception: " + message`; exactly one `sendToolResponse` with
`{ id: fc.id, name: fc.name, response: { result } }` is issued per call.
A host handler is modelled as `Except String String`: `.error e` is a
thrown exception with message `e`. -/

/-- The host-provided handler set (the `handlers` prop of the second
variant). -/
structure Handlers where
  addNote : String → String → Except String String
  addTask : String → Except String String
  controlMedia : String → Except String String
  getTime : Unit → Except String String
  openUrl : String → Except String String
deriving Inhabited

/-- An inbound tool call `{ id, name, args }`; arguments as key/value
pairs. -/
structure FunctionCall where
  id : String
  name : String
  args : List (String × String)
deriving DecidableEq

/-- A tool result `{ id, name, response: { result } }`. -/
structure ToolResult where
  id : String
  name : String
  response : String
deriving DecidableEq

/-- `fc.args.k`: the named argument, or `""` when absent (JS
`undefined`). -/
def argOf (fc : FunctionCall) (k : String) : String :=
  (((fc.args.find? (fun p => p.1 = k)).map Prod.snd)).getD ""

/-- The tool names declared in the `tools` array (lines 317-365). -/
def knownToolNames : List String :=
  ["add_note", "add_task", "get_current_time", "open_website",
   "control_multimedia", "stop_assistant"]

/-- The `try` block's `if/else if` chain (lines 489-497).  The returned
`Bool` records whether `setTimeout(stopSession, 1500)` was scheduled (the
`stop_assistant` branch).  The fall-through for an unknown name leaves the
initial `response = "Success"` untouched. -/
def runToolHandlers (h : Handlers) (fc : FunctionCall) :
    Except String (String × Bool) :=
  if fc.name = "get_current_time" then
    (h.getTime ()).map (fun r => (r, false))
  else if fc.name = "open_website" then
    (h.openUrl (argOf fc "target")).map (fun r => (r, false))
  else if fc.name = "add_note" then
    (h.addNote (argOf fc "title") (argOf fc "content")).map
      (fun r => (r, false))
  else if fc.name = "add_task" then
    (h.addTask (argOf fc "text")).map (fun r => (r, false))
  else if fc.name = "control_multimedia" then
    (h.controlMedia (argOf fc "action")).map (fun r => (r, false))
  else if fc.name = "stop_assistant" then
    Except.ok ("V1 signing off. Neural link terminated.", true)
  else
    Except.ok ("Success", false)

/-- Dispatch of one tool call (lines 486-502): run the chain inside
`try/catch` and send exactly one correlated result.  Returns the result
and the delayed-teardown flag. -/
def dispatchToolCall (h : Handlers) (fc : FunctionCall) : ToolResult × Bool :=
  match runToolHandlers h fc with
  | Except.ok (r, b) => (⟨fc.id, fc.name, r⟩, b)
  | Except.error e => (⟨fc.id, fc.name, "Handled Exception: " ++ e⟩, false)

/-- The `for (const fc of message.toolCall.functionCalls)` loop: one
result per call, in order. -/
def dispatchToolCalls (h : Handlers) (fcs : List FunctionCall) :
    List ToolResult :=
  fcs.map (fun fc => (dispatchToolCall h fc).1)

/-! ### C2 -/

/-- C2: every dispatched `tool_call` with a known name yields exactly one
`tool_result` (the result list is index-for-index correlated: identical
`id` sequence), and a thrown handler is caught and converted into a result
payload `"Handled Exception: ..."` rather than propagating. -/
theorem tool_call_exactly_one_result (h : Handlers) (fcs : List FunctionCall)
    (fc : FunctionCall) (hmem : fc ∈ fcs)
    (hknown : fc.name ∈ knownToolNames) :
    (dispatchToolCalls h fcs).length = fcs.length ∧
    (dispatchToolCalls h fcs).map ToolResult.id = fcs.map FunctionCall.id ∧
    (dispatchToolCall h fc).1.id = fc.id ∧
    (∀ e, runToolHandlers h fc = Except.error e →
      (dispatchToolCall h fc).1.response = "Handled Exception: " ++ e) := by
  refine ⟨by simp [dispatchToolCalls], ?_, ?_, ?_⟩
  · unfold dispatchToolCalls
    rw [List.map_map]
    apply List.map_congr_left
    intro x _
    simp only [Function.comp_apply, dispatchToolCall]
    cases runToolHandlers h x with
    | ok v => obtain ⟨r, b⟩ := v; rfl
    | error e => rfl
  · unfold dispatchToolCall
    cases hx : runToolHandlers h fc with
    | ok v => obtain ⟨r, b⟩ := v; rfl
    | error e => rfl
  · intro e he
    unfold dispatchToolCall
    rw [he]

/-- Witness for C2: a single known call `get_current_time` whose handler
throws `"boom"`; the dispatch still yields one result with the call's id
and the caught-exception payload. -/
theorem tool_call_exactly_one_result_witness :
    ((⟨"c1", "get_current_time", []⟩ : FunctionCall)
        ∈ [(⟨"c1", "get_current_time", []⟩ : FunctionCall)]) ∧
    ("get_current_time" ∈ knownToolNames) ∧
    (dispatchToolCalls
        ⟨fun _ _ => Except.ok "n", fun _ => Except.ok "t",
         fun _ => Except.ok "m", fun _ => Except.error "boom",
         fun _ => Except.ok "u"⟩
        [⟨"c1", "get_current_time", []⟩]).map ToolResult.id
      = ["c1"] :=
  ⟨by decide, by decide,
    (tool_call_exactly_one_result
      ⟨fun _ _ => Except.ok "n", fun _ => Except.ok "t",
       fun _ => Except.ok "m", fun _ => Except.error "boom",
       fun _ => Except.ok "u"⟩
      [⟨"c1", "get_current_time", []⟩] ⟨"c1", "get_current_time", []⟩
      (by decide) (by decide)).2.1⟩

/-! ### C3 -/

/-- A concrete handler set for counterexamples. -/
def stubHandlers : Handlers :=
  ⟨fun _ _ => Except.ok "note added", fun _ => Except.ok "task added",
   fun _ => Except.ok "media done", fun _ => Except.ok "12:00",
   fun _ => Except.ok "opened"⟩

/-- C3 (counterexample): an inbound `tool_call` named `"bogus_tool"` is not
in the known vocabulary, yet its dispatched result payload is the generic
initial value `"Success"` (line 487) — indistinguishable from a successful
call and in no way an "unsupported action" indication (the `if/else if`
chain at lines 489-497 has no `else` branch that flags unknown names). -/
theorem unsupported_tool_claim_counterexample :
    ("bogus_tool" ∉ knownToolNames) ∧
    (dispatchToolCall stubHandlers ⟨"x1", "bogus_tool", []⟩).1
      = ⟨"x1", "bogus_tool", "Success"⟩ ∧
    "Success" ≠ "Unsupported action" := by
  refine ⟨by decide, by decide, by decide⟩

/-- C3 (amended): for every inbound `tool_call` whose name is not in the
known tool vocabulary, the dispatcher produces — without raising — exactly
one result correlated to the call's `id`, but its payload is the untouched
default `"Success"`, not an "unsupported action" indication; no teardown
is scheduled. -/
theorem dispatch_unknown_tool (h : Handlers) (fc : FunctionCall)
    (hunk : fc.name ∉ knownToolNames) :
    dispatchToolCall h fc = (⟨fc.id, fc.name, "Success"⟩, false) := by
  have hname : fc.name ≠ "add_note" ∧ fc.name ≠ "add_task"
      ∧ fc.name ≠ "get_current_time" ∧ fc.name ≠ "open_website"
      ∧ fc.name ≠ "control_multimedia" ∧ fc.name ≠ "stop_assistant" := by
    simp only [knownToolNames, List.mem_cons, List.not_mem_nil, or_false,
      not_or] at hunk
    exact hunk
  obtain ⟨h1, h2, h3, h4, h5, h6⟩ := hname
  unfold dispatchToolCall runToolHandlers
  rw [if_neg h3, if_neg h4, if_neg h1, if_neg h2, if_neg h5, if_neg h6]

/-- Witness for C3 (amended) at the concrete unknown call
`{ id: "x1", name: "bogus_tool" }`. -/
theorem dispatch_unknown_tool_witness :
    ("bogus_tool" ∉ knownToolNames) ∧
    dispatchToolCall stubHandlers ⟨"x1", "bogus_tool", []⟩
      = (⟨"x1", "bogus_tool", "Success"⟩, false) :=
  ⟨by decide,
    dispatch_unknown_tool stubHandlers ⟨"x1", "bogus_tool", []⟩ (by decide)⟩

/-! ## Session controller

Second variant.  `stopSession` (lines 367-389) closes the session promise,
stops the microphone stream tracks, closes both audio contexts, stops and
clears all playback sources — each guarded by a presence check and a
`try/catch` or `.catch(() => {})`, so no step can raise — then resets the
UI state and the cursor.  `startSession` (lines 391-417 and 534) clears
the error, bails out only when the API key is absent, and otherwise
unconditionally creates fresh input/output audio contexts, acquires a new
microphone stream, opens a new transport connection and overwrites the
stored refs; it contains no check of the current lifecycle state and never
closes a previously stored session. -/

/-- Controller state: the refs of the second variant.  Resources are
numeric ids; `nextId` generates fresh ids for newly acquired resources. -/
structure Ctrl where
  sessionPromise : Option ℕ
  stream : Option ℕ
  inputAudioContext : Option ℕ
  audioContext : Option ℕ
  sources : List ℕ
  isListening : Bool
  status : String
  inputLevel : ℚ
  nextStartTime : ℚ
  error : Option String
  needsKey : Bool
  nextId : ℕ
deriving DecidableEq

/-- What one `stopSession` call released: session closes, stream-track
stops, audio-context closes, source stops. -/
structure ReleaseLog where
  sessionsClosed : ℕ
  streamsStopped : ℕ
  contextsClosed : ℕ
  sourcesStopped : ℕ
deriving DecidableEq

/-- `stopSession` (lines 367-389).  Every release is guarded by a
null-check and wrapped in `try/catch`/`.catch`, so the call always
succeeds; the returned log counts the releases actually performed. -/
def stopSession (s : Ctrl) : Ctrl × ReleaseLog :=
  ({ s with
      sessionPromise := none
      stream := none
      inputAudioContext := none
      audioContext := none
      sources := []
      isListening := false
      status := "Neural Link Standby"
      inputLevel := 0
      nextStartTime := 0 },
   { sessionsClosed := if s.sessionPromise.isSome then 1 else 0
     streamsStopped := if s.stream.isSome then 1 else 0
     contextsClosed := (if s.inputAudioContext.isSome then 1 else 0)
       + (if s.audioContext.isSome then 1 else 0)
     sourcesStopped := s.sources.length })

/-- What one `startSession` call acquired (and closed). -/
structure AcquireLog where
  audioContextsCreated : ℕ
  micStreamsAcquired : ℕ
  transportsOpened : ℕ
  transportsClosed : ℕ
deriving DecidableEq

/-- `startSession` (lines 391-417, 534), success path: clear the error;
if the API key is absent, set `needsKey` and return having acquired
nothing; otherwise create two fresh audio contexts, acquire a fresh
microphone stream, open a fresh transport and overwrite the stored refs.
No branch inspects the current lifecycle state and nothing is closed. -/
def startSession (apiKeyPresent : Bool) (s : Ctrl) : Ctrl × AcquireLog :=
  let s0 := { s with error := none }
  if apiKeyPresent = false then
    ({ s0 with needsKey := true },
     { audioContextsCreated := 0, micStreamsAcquired := 0,
       transportsOpened := 0, transportsClosed := 0 })
  else
    ({ s0 with
        status := "Synchronizing Neural Frequencies..."
        inputAudioContext := some s.nextId
        audioContext := some (s.nextId + 1)
        stream := some (s.nextId + 2)
        sessionPromise := some (s.nextId + 3)
        nextId := s.nextId + 4 },
     { audioContextsCreated := 2, micStreamsAcquired := 1,
       transportsOpened := 1, transportsClosed := 0 })

/-! ### C8 -/

/-- C8: `stopSession` is total (never raises: every release is
null-guarded and exception-wrapped in the source) and idempotent: a second
call in rapid succession releases nothing — the devices and the microphone
stream were released exactly once by the first call — and leaves the state
exactly as the first call left it. -/
theorem stop_session_idempotent (s : Ctrl) :
    stopSession (stopSession s).1
      = ((stopSession s).1,
         { sessionsClosed := 0, streamsStopped := 0, contextsClosed := 0,
           sourcesStopped := 0 }) ∧
    (stopSession s).1.error = s.error := by
  constructor
  · rfl
  · rfl

/-! ### C7 -/

/-- A concrete controller state with an active session: transport open
(id 3), microphone stream and both contexts held, listening. -/
def activeCtrl : Ctrl :=
  { sessionPromise := some 3
    stream := some 2
    inputAudioContext := some 0
    audioContext := some 1
    sources := []
    isListening := true
    status := "V1 Synchronized"
    inputLevel := 0
    nextStartTime := 0
    error := none
    needsKey := false
    nextId := 4 }

/-- C7 (counterexample): from an Active state (`isListening = true`,
transport ref present) with the API key present, `startSession` is not a
no-op: it creates two fresh audio contexts, acquires a new microphone
stream and opens a new transport (lines 403-418 run unconditionally —
there is no not-Idle guard), and the previously stored transport is
overwritten without being closed, so two transports are live. -/
theorem start_not_idle_claim_counterexample :
    activeCtrl.isListening = true ∧
    (startSession true activeCtrl).2.transportsOpened = 1 ∧
    (startSession true activeCtrl).2.micStreamsAcquired = 1 ∧
    (startSession true activeCtrl).2.audioContextsCreated = 2 ∧
    (startSession true activeCtrl).2.transportsClosed = 0 ∧
    (startSession true activeCtrl).1.sessionPromise ≠ activeCtrl.sessionPromise := by
  refine ⟨rfl, rfl, rfl, rfl, rfl, by decide⟩

/-- C7 (amended): calling `start()` while the session is not Idle is NOT a
no-op.  With an API key present it behaves exactly as from Idle: it
acquires two fresh audio devices and a new microphone stream, opens a new
transport, and overwrites the stored refs without closing the previous
transport — `startSession` itself never enforces the at-most-one-active-
session invariant (only the absent-API-key check short-circuits). -/
theorem start_session_not_guarded (s : Ctrl)
    (hactive : s.isListening = true ∨ s.sessionPromise ≠ none) :
    (startSession true s).2
      = { audioContextsCreated := 2, micStreamsAcquired := 1,
          transportsOpened := 1, transportsClosed := 0 } ∧
    (startSession true s).1.sessionPromise = some (s.nextId + 3) ∧
    (startSession true s).1.stream = some (s.nextId + 2) := by
  refine ⟨rfl, rfl, rfl⟩

/-- Witness for C7 (amended) at the concrete Active state. -/
theorem start_session_not_guarded_witness :
    (activeCtrl.isListening = true ∨ activeCtrl.sessionPromise ≠ none) ∧
    (startSession true activeCtrl).1.sessionPromise = some 7 :=
  ⟨Or.inl rfl,
    (start_session_not_guarded activeCtrl (Or.inl rfl)).2.1⟩

/-! ## Capture pipeline wiring

Second variant, `onopen` (lines 421-446): the `ScriptProcessor` and its
`onaudioprocess` handler — the only code path that calls
`sendRealtimeInput` — are created *inside* the transport's `onopen`
callback.  Before `open` no processor exists, so an audio-device callback
produces and queues nothing; after `open` every full chunk is encoded and
handed to the transport in capture order. -/

/-- Events reaching the capture wiring: the transport `open` signal and an
audio-device chunk boundary carrying the captured frame. -/
inductive CaptureEv where
  | openEv
  | tick (frame : List ℚ)
deriving DecidableEq

/-- Capture wiring state: whether `onopen` has installed the script
processor, and the chunks handed to `sendRealtimeInput`, in order. -/
structure CapSt where
  wired : Bool
  sent : List (List ℕ)
deriving DecidableEq

/-- One event: `open` installs the processor (lines 425-445); a chunk
boundary encodes and uploads only if the processor is installed, and is
otherwise lost — there is no queue anywhere. -/
def capStep (s : CapSt) (e : CaptureEv) : CapSt :=
  match e with
  | CaptureEv.openEv => { s with wired := true }
  | CaptureEv.tick f =>
    if s.wired then { s with sent := s.sent ++ [floatFrameToPcm16 f] } else s

/-- Run the capture wiring over a whole event trace. -/
def capRun (s : CapSt) (es : List CaptureEv) : CapSt := es.foldl capStep s

/-- The frames of every tick of a trace, in order. -/
def allTicks : List CaptureEv → List (List ℚ)
  | [] => []
  | CaptureEv.openEv :: rest => allTicks rest
  | CaptureEv.tick f :: rest => f :: allTicks rest

/-- The frames of the ticks occurring strictly after the first `open` of a
trace (none when the trace has no `open`). -/
def ticksAfterOpen : List CaptureEv → List (List ℚ)
  | [] => []
  | CaptureEv.openEv :: rest => allTicks rest
  | CaptureEv.tick _ :: rest => ticksAfterOpen rest

theorem capRun_cons (s : CapSt) (e : CaptureEv) (rest : List CaptureEv) :
    capRun s (e :: rest) = capRun (capStep s e) rest := rfl

theorem capRun_sent_wired (es : List CaptureEv) :
    ∀ s : CapSt, s.wired = true →
      (capRun s es).sent = s.sent ++ (allTicks es).map floatFrameToPcm16 := by
  induction es with
  | nil => intro s _; simp [capRun, allTicks]
  | cons e rest ih =>
    intro s hw
    cases e with
    | openEv =>
      rw [capRun_cons]
      have hstep : capStep s CaptureEv.openEv = ⟨true, s.sent⟩ := rfl
      rw [hstep, ih ⟨true, s.sent⟩ rfl]
      rfl
    | tick f =>
      rw [capRun_cons]
      have hstep : capStep s (CaptureEv.tick f)
          = ⟨s.wired, s.sent ++ [floatFrameToPcm16 f]⟩ := by
        simp [capStep, hw]
      rw [hstep, ih ⟨s.wired, s.sent ++ [floatFrameToPcm16 f]⟩ hw]
      simp [allTicks, List.append_assoc]

theorem capRun_sent_unwired (es : List CaptureEv) :
    ∀ s : CapSt, s.wired = false →
      (capRun s es).sent
        = s.sent ++ (ticksAfterOpen es).map floatFrameToPcm16 := by
  induction es with
  | nil => intro s _; simp [capRun, ticksAfterOpen]
  | cons e rest ih =>
    intro s hw
    cases e with
    | openEv =>
      rw [capRun_cons]
      have hstep : capStep s CaptureEv.openEv = ⟨true, s.sent⟩ := rfl
      rw [hstep]
      exact capRun_sent_wired rest ⟨true, s.sent⟩ rfl
    | tick f =>
      rw [capRun_cons]
      have hstep : capStep s (CaptureEv.tick f) = s := by
        simp [capStep, hw]
      rw [hstep]
      exact ih s hw

theorem ticksAfterOpen_of_no_open (es : List CaptureEv)
    (h : CaptureEv.openEv ∉ es) : ticksAfterOpen es = [] := by
  induction es with
  | nil => rfl
  | cons e rest ih =>
    cases e with
    | openEv => exact absurd (List.mem_cons_self _ _) h
    | tick f =>
      simp only [ticksAfterOpen]
      exact ih (fun hm => h (List.mem_cons_of_mem _ hm))

/-! ### C10 -/

/-- C10: starting from the initial state (transport not yet open, nothing
sent), the chunks handed to the transport are exactly the encodings of the
ticks occurring strictly after the `open` signal, in capture order — so no
chunk is ever sent before the transport reports open, every chunk produced
while the transport is not yet open is dropped rather than queued, and in
particular a trace with no `open` at all sends nothing. -/
theorem capture_sends_only_after_open (es : List CaptureEv) :
    (capRun ⟨false, []⟩ es).sent
      = (ticksAfterOpen es).map floatFrameToPcm16 ∧
    (CaptureEv.openEv ∉ es → (capRun ⟨false, []⟩ es).sent = []) := by
  constructor
  · exact capRun_sent_unwired es ⟨false, []⟩ rfl
  · intro h
    rw [capRun_sent_unwired es ⟨false, []⟩ rfl, ticksAfterOpen_of_no_open es h]
    rfl

/-- Witness for C10 at the concrete trace `[tick [1]]` (one chunk captured
with the transport never opened): nothing is sent. -/
theorem capture_sends_only_after_open_witness :
    (CaptureEv.openEv ∉ [CaptureEv.tick [(1 : ℚ)]]) ∧
    (capRun ⟨false, []⟩ [CaptureEv.tick [(1 : ℚ)]]).sent = [] := by
  have h : CaptureEv.openEv ∉ [CaptureEv.tick [(1 : ℚ)]] := by
    intro hm
    simp only [List.mem_singleton] at hm
    exact CaptureEv.noConfusion hm
  exact ⟨h, (capture_sends_only_after_open [CaptureEv.tick [(1 : ℚ)]]).2 h⟩

/-! ## Transport codec and malformed-chunk recovery

`decode` (lines 288-296, identical to lines 17-24 of the first variant)
is `atob` plus a byte copy: it throws `InvalidCharacterError` on input
that is not forgiving-base64.  The first variant's `decodeAudioData`
(lines 34-51) builds `new Int16Array(data.buffer)`, which throws a
`RangeError` when the byte length is odd.  In the first variant's
`onmessage` (lines 90-110) these throws abort only the current message's
handler: nothing is scheduled, `onerror`/`stopSession`/`setError` are not
invoked, and the next message is dispatched normally. -/

/-- ASCII whitespace removed by forgiving-base64 (`atob`). -/
def isB64Ws (c : Char) : Bool :=
  c = ' ' ∨ c = '\t' ∨ c = '\n' ∨ c = '\r' ∨ c = '\x0c'

/-- Value of one base64 alphabet character. -/
def base64Val (c : Char) : Option ℕ :=
  if 'A' ≤ c ∧ c ≤ 'Z' then some (c.toNat - 65)
  else if 'a' ≤ c ∧ c ≤ 'z' then some (c.toNat - 97 + 26)
  else if '0' ≤ c ∧ c ≤ '9' then some (c.toNat - 48 + 52)
  else if c = '+' then some 62
  else if c = '/' then some 63
  else none

/-- Reassemble 8-bit bytes from 6-bit groups (2 trailing sextets yield one
byte, 3 yield two). -/
def sextetsToBytes : List ℕ → List ℕ
  | a :: b :: c :: d :: rest =>
    (a * 4 + b / 16) :: ((b % 16) * 16 + c / 4) :: ((c % 4) * 64 + d)
      :: sextetsToBytes rest
  | [a, b] => [a * 4 + b / 16]
  | [a, b, c] => [a * 4 + b / 16, (b % 16) * 16 + c / 4]
  | _ => []

/-- Remove one or two trailing `=` padding characters. -/
def dropTrailingEqs (cs : List Char) : List Char :=
  match cs.reverse with
  | '=' :: '=' :: rest => rest.reverse
  | '=' :: rest => rest.reverse
  | _ => cs

/-- `atob` (forgiving-base64 decode), the engine of `decode`
(lines 288-296): strip ASCII whitespace, strip padding when the length is
a multiple of 4, fail with `InvalidCharacterError` on a leftover length of
1 mod 4 or on any character outside the alphabet. -/
def atob (s : String) : Except String (List ℕ) :=
  let cs0 := s.data.filter (fun c => !(isB64Ws c))
  let cs := if cs0.length % 4 = 0 then dropTrailingEqs cs0 else cs0
  if cs.length % 4 = 1 then Except.error "InvalidCharacterError"
  else
    match cs.mapM base64Val with
    | none => Except.error "InvalidCharacterError"
    | some vals => Except.ok (sextetsToBytes vals)

/-- `decodeAudioData` of the first variant (lines 34-51):
`new Int16Array(data.buffer)` throws a `RangeError` when the byte length
is odd; otherwise mono samples each divided by `32768.0`. -/
def decodeAudioDataV1 (bytes : List ℕ) : Except String (List ℚ) :=
  if bytes.length % 2 = 0 then
    Except.ok ((bytesToInt16 bytes).map (fun (n : ℤ) => (n : ℚ) / 32768))
  else Except.error "RangeError"

/-- The whole chunk decode of the first variant's `onmessage` line 94:
`decodeAudioData(decode(audioData), ...)`. -/
def decodeChunkV1 (payload : String) : Except String (List ℚ) :=
  match atob payload with
  | Except.error e => Except.error e
  | Except.ok bytes => decodeAudioDataV1 bytes

/-- A chunk is malformed when its decode pipeline throws (invalid base64
or odd byte count). -/
def isMalformedChunk (payload : String) : Bool :=
  match decodeChunkV1 payload with
  | Except.error _ => true
  | Except.ok _ => false

/-- An inbound server message as probed by the first variant's
`onmessage` (lines 90-110). -/
structure ServerMsgV1 where
  audioData : Option String
  outputTranscription : Option String
  inputTranscription : Option String
deriving DecidableEq

/-- Session state touched by the first variant's `onmessage`:
the playback cursor, the record of `source.start` calls
(start time, duration), the transcript log, and the lifecycle fields
(`error`, `isListening`, `status`) that only `onerror`/`onclose`/
`stopSession` write. -/
structure V1St where
  nextStart : ℚ
  scheduled : List (ℚ × ℚ)
  transcription : List String
  error : Option String
  isListening : Bool
  status : String
deriving DecidableEq

/-- The transcription appends of lines 104-109 (two independent `if`s). -/
def appendTranscriptsV1 (s : V1St) (m : ServerMsgV1) : V1St :=
  let s1 := match m.outputTranscription with
    | some t => { s with transcription := s.transcription ++ ["V1: " ++ t] }
    | none => s
  match m.inputTranscription with
  | some t => { s1 with transcription := s1.transcription ++ ["You: " ++ t] }
  | none => s1

/-- The first variant's `onmessage` (lines 90-110).  On an audio payload
the cursor is clamped first (line 93); a decode throw aborts the rest of
the handler (the remaining state is kept); on success the buffer is
scheduled at the cursor (duration `frameCount / 24000`) and the cursor
advances, then the transcription `if`s run. -/
def handleMessageV1 (ct : ℚ) (s : V1St) (m : ServerMsgV1) : V1St :=
  match m.audioData with
  | some payload =>
    let s1 := { s with nextStart := max s.nextStart ct }
    match atob payload with
    | Except.error _ => s1
    | Except.ok bytes =>
      match decodeAudioDataV1 bytes with
      | Except.error _ => s1
      | Except.ok samples =>
        let d : ℚ := (samples.length : ℚ) / 24000
        let s2 := { s1 with
          scheduled := s1.scheduled ++ [(s1.nextStart, d)]
          nextStart := s1.nextStart + d }
        appendTranscriptsV1 s2 m
  | none => appendTranscriptsV1 s m

/-- The transport dispatches `onmessage` once per inbound message, with
the device clock read at each dispatch. -/
def processMessagesV1 (s : V1St) (ms : List (ℚ × ServerMsgV1)) : V1St :=
  ms.foldl (fun acc cm => handleMessageV1 cm.1 acc cm.2) s

/-! ### C9 -/

/-- C9: a malformed inbound audio chunk (invalid base64 for the transport
decode, or odd byte count for the 16-bit PCM decode) is recovered locally:
nothing is scheduled (the chunk is dropped), the lifecycle fields are
untouched (no fatal session error — `error`, `isListening` and `status`
keep their values), and processing of the remaining messages continues
exactly as if only the cursor clamp of line 93 had happened. -/
theorem malformed_chunk_recovered (ct : ℚ) (s : V1St) (m : ServerMsgV1)
    (payload : String) (hp : m.audioData = some payload)
    (hm : isMalformedChunk payload = true) :
    handleMessageV1 ct s m = { s with nextStart := max s.nextStart ct } ∧
    (handleMessageV1 ct s m).scheduled = s.scheduled ∧
    (handleMessageV1 ct s m).error = s.error ∧
    (handleMessageV1 ct s m).isListening = s.isListening ∧
    (handleMessageV1 ct s m).status = s.status ∧
    ∀ rest : List (ℚ × ServerMsgV1),
      processMessagesV1 s ((ct, m) :: rest)
        = processMessagesV1 { s with nextStart := max s.nextStart ct } rest := by
  have hmain : handleMessageV1 ct s m
      = { s with nextStart := max s.nextStart ct } := by
    rcases ha : atob payload with e | bytes
    · simp only [handleMessageV1, hp, ha]
    · rcases hd : decodeAudioDataV1 bytes with e2 | samples
      · simp only [handleMessageV1, hp, ha, hd]
      · exfalso
        simp only [isMalformedChunk, decodeChunkV1, ha, hd] at hm
        cases hm
  refine ⟨hmain, by rw [hmain], by rw [hmain], by rw [hmain], by rw [hmain], ?_⟩
  intro rest
  have hcons : processMessagesV1 s ((ct, m) :: rest)
      = processMessagesV1 (handleMessageV1 ct s m) rest := rfl
  rw [hcons, hmain]

/-- Witness for C9 at the concrete payload `"QQ=="`: valid base64 of the
single byte `65`, hence an odd byte count — the PCM decode throws, the
chunk is dropped, the session state keeps its lifecycle fields. -/
theorem malformed_chunk_recovered_witness :
    isMalformedChunk "QQ==" = true ∧
    (handleMessageV1 2 ⟨0, [], [], none, true, "Active"⟩
        ⟨some "QQ==", none, none⟩).scheduled = [] ∧
    (handleMessageV1 2 ⟨0, [], [], none, true, "Active"⟩
        ⟨some "QQ==", none, none⟩).isListening = true :=
  ⟨by decide,
    (malformed_chunk_recovered 2 ⟨0, [], [], none, true, "Active"⟩
      ⟨some "QQ==", none, none⟩ "QQ==" rfl (by decide)).2.1,
    (malformed_chunk_recovered 2 ⟨0, [], [], none, true, "Active"⟩
      ⟨some "QQ==", none, none⟩ "QQ==" rfl (by decide)).2.2.2.1⟩
